import Mathlib

/-!
Verification of `propositions/operators.py`: five syntactic conversions of
propositional formulas to restricted operator bases. The formula tree and the
truth-table evaluator live in `propositions/syntax.py` / `propositions/semantics.py`,
which are external to the file under verification; they are modelled from the
design document (its section 3 data model and standard truth-table semantics).
-/

namespace Operators

/-- Modelled from the spec: the fixed enumerated set of binary operator tags
of the formula tree, written in the source as the root strings
`&`, `|`, `->`, `+`, `<->`, `-&`, `-|`. -/
inductive BinOp where
  | and
  | or
  | implies
  | xor
  | iff
  | nand
  | nor
deriving DecidableEq, Repr

/-- Modelled from the spec: the immutable formula expression tree of
`propositions/syntax.py`. A node is a constant (root `T` or `F`), a variable
(opaque name), a unary node (the only unary tag is `~`), or a binary node
with a tag from the fixed enumerated set and two children. The tag of a node
determines its arity exactly, so well-formed formulas are exactly the trees
of this inductive type. -/
inductive Formula where
  | const : Bool → Formula
  | var : String → Formula
  | neg : Formula → Formula
  | bin : BinOp → Formula → Formula → Formula
deriving DecidableEq, Repr

/-- Modelled from the spec: truth table of each binary operator tag. -/
def evalBin : BinOp → Bool → Bool → Bool
  | .and, a, b => a && b
  | .or, a, b => a || b
  | .implies, a, b => !a || b
  | .xor, a, b => a != b
  | .iff, a, b => a == b
  | .nand, a, b => !(a && b)
  | .nor, a, b => !(a || b)

/-- Modelled from the spec: the truth-table evaluator of
`propositions/semantics.py`, evaluating a formula under an assignment of truth
values to variable names. -/
def eval (v : String → Bool) : Formula → Bool
  | .const b => b
  | .var s => v s
  | .neg f => !(eval v f)
  | .bin op l r => evalBin op (eval v l) (eval v r)

/-- Modelled from the spec: the variable names occurring in a formula. -/
def vars : Formula → List String
  | .const _ => []
  | .var s => [s]
  | .neg f => vars f
  | .bin _ l r => vars l ++ vars r

/-- The operator and constant tags occurring in a formula, as the source
spells them (variables contribute nothing). -/
def binStr : BinOp → String
  | .and => "&"
  | .or => "|"
  | .implies => "->"
  | .xor => "+"
  | .iff => "<->"
  | .nand => "-&"
  | .nor => "-|"

/-- The list of operator and constant tags occurring in a formula. -/
def opTags : Formula → List String
  | .const true => ["T"]
  | .const false => ["F"]
  | .var _ => []
  | .neg f => "~" :: opTags f
  | .bin op l r => binStr op :: (opTags l ++ opTags r)

/-- Every operator and constant tag of the formula lies in the given list. -/
def tagsWithin (f : Formula) (allowed : List String) : Bool :=
  (opTags f).all (fun t => allowed.contains t)

/-- Embedding of `to_not_and_or`: the branch on a Python `bool` input does not
apply to formula-tree inputs, and the trailing `return formula` is unreachable
because every well-formed root shape is covered by the preceding cases. -/
def to_not_and_or : Formula → Formula
  | .const true => .bin .or (.var "p") (.neg (.var "p"))
  | .const false => .bin .and (.var "p") (.neg (.var "p"))
  | .var s => .var s
  | .neg f => .neg (to_not_and_or f)
  | .bin op l r =>
    let left := to_not_and_or l
    let right := to_not_and_or r
    match op with
    | .and => .bin .and left right
    | .or => .bin .or left right
    | .implies => .bin .or (.neg left) right
    | .xor => .bin .or (.bin .and left (.neg right)) (.bin .and (.neg left) right)
    | .iff => .bin .and (.bin .or (.neg left) right) (.bin .or left (.neg right))
    | .nand => .neg (.bin .and left right)
    | .nor => .neg (.bin .or left right)

/-- Embedding of the inner `convert_or` of `to_not_and`. A constant or a
binary node other than `&` and `|` falls through to `return expr`, leaving the
node unchanged with unconverted children. -/
def convert_or : Formula → Formula
  | .var s => .var s
  | .neg f => .neg (convert_or f)
  | .bin .and l r => .bin .and (convert_or l) (convert_or r)
  | .bin .or l r => .neg (.bin .and (.neg (convert_or l)) (.neg (convert_or r)))
  | .bin op l r => .bin op l r
  | .const b => .const b

/-- Embedding of `to_not_and`. -/
def to_not_and (formula : Formula) : Formula :=
  convert_or (to_not_and_or formula)

/-- Embedding of the inner `convert_to_nand` of `to_nand`. The source builds
the inner `-&` node once and uses it as both children of the outer one; here
that sharing appears as the let binding. -/
def convert_to_nand : Formula → Formula
  | .var s => .var s
  | .neg f =>
    let inner := convert_to_nand f
    .bin .nand inner inner
  | .bin .and l r =>
    let nd := Formula.bin .nand (convert_to_nand l) (convert_to_nand r)
    .bin .nand nd nd
  | .bin op l r => .bin op l r
  | .const b => .const b

/-- Embedding of `to_nand`. -/
def to_nand (formula : Formula) : Formula :=
  convert_to_nand (to_not_and formula)

/-- Embedding of the inner `convert_to_implies_not` of `to_implies_not`. -/
def convert_to_implies_not : Formula → Formula
  | .var s => .var s
  | .neg f => .neg (convert_to_implies_not f)
  | .bin .and l r =>
    .neg (.bin .implies (convert_to_implies_not l) (.neg (convert_to_implies_not r)))
  | .bin .or l r =>
    .bin .implies (.neg (convert_to_implies_not l)) (convert_to_implies_not r)
  | .bin op l r => .bin op l r
  | .const b => .const b

/-- Embedding of `to_implies_not`: the reduction to not-and-or is computed
first, then a bare-constant result is special-cased before the recursive
conversion runs. -/
def to_implies_not (formula : Formula) : Formula :=
  match to_not_and_or formula with
  | .const true => .bin .implies (.var "p") (.var "p")
  | .const false => .neg (.bin .implies (.var "p") (.var "p"))
  | f1 => convert_to_implies_not f1

/-- Embedding of the inner `convert_to_implies_false` of `to_implies_false`. -/
def convert_to_implies_false : Formula → Formula
  | .var s => .var s
  | .neg f => .bin .implies (convert_to_implies_false f) (.const false)
  | .bin .implies l r =>
    .bin .implies (convert_to_implies_false l) (convert_to_implies_false r)
  | .bin op l r => .bin op l r
  | .const b => .const b

/-- Embedding of `to_implies_false`: the source special-cases only a bare
`T` constant result of `to_implies_not`; a bare `F` constant would fall
through to the conversion, which returns it unchanged. -/
def to_implies_false (formula : Formula) : Formula :=
  match to_implies_not formula with
  | .const true => .bin .implies (.const false) (.const false)
  | f1 => convert_to_implies_false f1

@[simp] theorem eval_const (v : String → Bool) (b : Bool) : eval v (.const b) = b := rfl

@[simp] theorem eval_var (v : String → Bool) (s : String) : eval v (.var s) = v s := rfl

@[simp] theorem eval_neg (v : String → Bool) (f : Formula) :
    eval v (.neg f) = !(eval v f) := rfl

@[simp] theorem eval_bin (v : String → Bool) (op : BinOp) (l r : Formula) :
    eval v (.bin op l r) = evalBin op (eval v l) (eval v r) := rfl

/-- The formula's root is a constant tag (`is_constant(formula.root)` in the source). -/
def isConstRoot : Formula → Bool
  | .const _ => true
  | _ => false

/-- The output of `to_not_and_or` never has a constant at its root: constants are
replaced by variable idioms and every other case produces a variable, a negation
or a binary node. -/
theorem to_not_and_or_not_const (F : Formula) : isConstRoot (to_not_and_or F) = false := by
  cases F with
  | const b => cases b <;> rfl
  | var s => rfl
  | neg f => rfl
  | bin op l r => cases op <;> rfl

/-- The conversion step of `to_implies_not` sends a non-constant root to a
non-constant root. -/
theorem convert_to_implies_not_not_const (F : Formula) (h : isConstRoot F = false) :
    isConstRoot (convert_to_implies_not F) = false := by
  cases F with
  | const b => exact absurd h (by simp [isConstRoot])
  | var s => rfl
  | neg f => rfl
  | bin op l r => cases op <;> rfl

/-- Because `to_not_and_or` never returns a bare constant, the special-case
branches of `to_implies_not` never fire. -/
theorem to_implies_not_eq (F : Formula) :
    to_implies_not F = convert_to_implies_not (to_not_and_or F) := by
  have h := to_not_and_or_not_const F
  unfold to_implies_not
  cases hF : to_not_and_or F with
  | const b => rw [hF] at h; simp [isConstRoot] at h
  | var s => rfl
  | neg f => rfl
  | bin op l r => rfl

/-- The output of `to_implies_not` never has a constant at its root. -/
theorem to_implies_not_not_const (F : Formula) :
    isConstRoot (to_implies_not F) = false := by
  rw [to_implies_not_eq]
  exact convert_to_implies_not_not_const _ (to_not_and_or_not_const F)

/-- Because `to_implies_not` never returns a bare constant, the special-case
branch of `to_implies_false` never fires. -/
theorem to_implies_false_eq (F : Formula) :
    to_implies_false F = convert_to_implies_false (to_implies_not F) := by
  have h := to_implies_not_not_const F
  unfold to_implies_false
  cases hF : to_implies_not F with
  | const b => rw [hF] at h; simp [isConstRoot] at h
  | var s => rfl
  | neg f => rfl
  | bin op l r => rfl

/-- Truth-table preservation of `to_not_and_or`. -/
theorem eval_to_not_and_or (v : String → Bool) (F : Formula) :
    eval v (to_not_and_or F) = eval v F := by
  induction F with
  | const b => cases b <;> simp [to_not_and_or, evalBin] <;> cases v "p" <;> rfl
  | var s => rfl
  | neg f ih => simp [to_not_and_or, ih]
  | bin op l r ihl ihr =>
    cases op <;> simp [to_not_and_or, evalBin, ihl, ihr] <;>
      cases eval v l <;> cases eval v r <;> rfl

/-- Truth-table preservation of the `convert_or` step, on every formula. -/
theorem eval_convert_or (v : String → Bool) (F : Formula) :
    eval v (convert_or F) = eval v F := by
  induction F with
  | const b => rfl
  | var s => rfl
  | neg f ih => simp [convert_or, ih]
  | bin op l r ihl ihr =>
    cases op <;> simp [convert_or, evalBin, ihl, ihr] <;>
      cases eval v l <;> cases eval v r <;> rfl

/-- Truth-table preservation of `to_not_and`. -/
theorem eval_to_not_and (v : String → Bool) (F : Formula) :
    eval v (to_not_and F) = eval v F := by
  rw [to_not_and, eval_convert_or, eval_to_not_and_or]

/-- Truth-table preservation of the `convert_to_nand` step, on every formula. -/
theorem eval_convert_to_nand (v : String → Bool) (F : Formula) :
    eval v (convert_to_nand F) = eval v F := by
  induction F with
  | const b => rfl
  | var s => rfl
  | neg f ih => simp [convert_to_nand, evalBin, ih]
  | bin op l r ihl ihr =>
    cases op <;> simp [convert_to_nand, evalBin, ihl, ihr] <;>
      cases eval v l <;> cases eval v r <;> rfl

/-- Truth-table preservation of `to_nand`. -/
theorem eval_to_nand (v : String → Bool) (F : Formula) :
    eval v (to_nand F) = eval v F := by
  rw [to_nand, eval_convert_to_nand, eval_to_not_and]

/-- Truth-table preservation of the `convert_to_implies_not` step, on every
formula. -/
theorem eval_convert_to_implies_not (v : String → Bool) (F : Formula) :
    eval v (convert_to_implies_not F) = eval v F := by
  induction F with
  | const b => rfl
  | var s => rfl
  | neg f ih => simp [convert_to_implies_not, ih]
  | bin op l r ihl ihr =>
    cases op <;> simp [convert_to_implies_not, evalBin, ihl, ihr] <;>
      cases eval v l <;> cases eval v r <;> rfl

/-- Truth-table preservation of `to_implies_not`. -/
theorem eval_to_implies_not (v : String → Bool) (F : Formula) :
    eval v (to_implies_not F) = eval v F := by
  rw [to_implies_not_eq, eval_convert_to_implies_not, eval_to_not_and_or]

/-- Truth-table preservation of the `convert_to_implies_false` step, on every
formula. -/
theorem eval_convert_to_implies_false (v : String → Bool) (F : Formula) :
    eval v (convert_to_implies_false F) = eval v F := by
  induction F with
  | const b => rfl
  | var s => rfl
  | neg f ih => simp [convert_to_implies_false, evalBin, ih]
  | bin op l r ihl ihr =>
    cases op <;> simp [convert_to_implies_false, evalBin, ihl, ihr] <;>
      cases eval v l <;> cases eval v r <;> rfl

/-- Truth-table preservation of `to_implies_false`. -/
theorem eval_to_implies_false (v : String → Bool) (F : Formula) :
    eval v (to_implies_false F) = eval v F := by
  rw [to_implies_false_eq, eval_convert_to_implies_false, eval_to_implies_not]

/-- Evaluation only depends on the values assigned to the formula's variables. -/
theorem eval_congr_vars (F : Formula) (v v' : String → Bool)
    (h : ∀ x ∈ vars F, v x = v' x) : eval v F = eval v' F := by
  induction F with
  | const b => rfl
  | var s => exact h s (by simp [vars])
  | neg f ih => simp [ih (fun x hx => h x (by simpa [vars] using hx))]
  | bin op l r ihl ihr =>
    have hl := ihl (fun x hx => h x (by simp [vars]; exact Or.inl hx))
    have hr := ihr (fun x hx => h x (by simp [vars]; exact Or.inr hx))
    simp [hl, hr]

/-- Operators drawn from the not-and-or base (variables only otherwise). -/
def onlyNAO : Formula → Bool
  | .var _ => true
  | .neg f => onlyNAO f
  | .bin .and l r => onlyNAO l && onlyNAO r
  | .bin .or l r => onlyNAO l && onlyNAO r
  | _ => false

/-- Operators drawn from the not-and base. -/
def onlyNA : Formula → Bool
  | .var _ => true
  | .neg f => onlyNA f
  | .bin .and l r => onlyNA l && onlyNA r
  | _ => false

/-- Operators drawn from the single-nand base. -/
def onlyNand : Formula → Bool
  | .var _ => true
  | .bin .nand l r => onlyNand l && onlyNand r
  | _ => false

/-- Operators drawn from the implies-not base. -/
def onlyIN : Formula → Bool
  | .var _ => true
  | .neg f => onlyIN f
  | .bin .implies l r => onlyIN l && onlyIN r
  | _ => false

/-- Operators drawn from the implies-false base: the only constant allowed is
the false constant. -/
def onlyIF : Formula → Bool
  | .var _ => true
  | .const false => true
  | .bin .implies l r => onlyIF l && onlyIF r
  | _ => false

@[simp] theorem tagsWithin_const (b : Bool) (allowed : List String) :
    tagsWithin (.const b) allowed = allowed.contains (if b then "T" else "F") := by
  cases b <;> simp [tagsWithin, opTags]

@[simp] theorem tagsWithin_var (s : String) (allowed : List String) :
    tagsWithin (.var s) allowed = true := rfl

@[simp] theorem tagsWithin_neg (f : Formula) (allowed : List String) :
    tagsWithin (.neg f) allowed = (allowed.contains "~" && tagsWithin f allowed) := by
  simp [tagsWithin, opTags]

@[simp] theorem tagsWithin_bin (op : BinOp) (l r : Formula) (allowed : List String) :
    tagsWithin (.bin op l r) allowed =
      (allowed.contains (binStr op) && (tagsWithin l allowed && tagsWithin r allowed)) := by
  simp [tagsWithin, opTags, Bool.and_assoc]

/-- The not-and-or fragment has tags within the documented alphabet of
`to_not_and_or`. -/
theorem tagsWithin_of_onlyNAO (F : Formula) (h : onlyNAO F = true) :
    tagsWithin F ["~", "&", "|"] = true := by
  induction F with
  | const b => simp [onlyNAO] at h
  | var s => rfl
  | neg f ih => simpa [binStr] using ih (by simpa [onlyNAO] using h)
  | bin op l r ihl ihr =>
    cases op <;> simp [onlyNAO] at h <;>
      simp [binStr, ihl h.1, ihr h.2]

/-- The not-and fragment has tags within the documented alphabet of
`to_not_and`. -/
theorem tagsWithin_of_onlyNA (F : Formula) (h : onlyNA F = true) :
    tagsWithin F ["~", "&"] = true := by
  induction F with
  | const b => simp [onlyNA] at h
  | var s => rfl
  | neg f ih => simpa [binStr] using ih (by simpa [onlyNA] using h)
  | bin op l r ihl ihr =>
    cases op <;> simp [onlyNA] at h <;>
      simp [binStr, ihl h.1, ihr h.2]

/-- The nand fragment has tags within the documented alphabet of `to_nand`. -/
theorem tagsWithin_of_onlyNand (F : Formula) (h : onlyNand F = true) :
    tagsWithin F ["-&"] = true := by
  induction F with
  | const b => simp [onlyNand] at h
  | var s => rfl
  | neg f ih => simp [onlyNand] at h
  | bin op l r ihl ihr =>
    cases op <;> simp [onlyNand] at h <;>
      simp [binStr, ihl h.1, ihr h.2]

/-- The implies-not fragment has tags within the documented alphabet of
`to_implies_not`. -/
theorem tagsWithin_of_onlyIN (F : Formula) (h : onlyIN F = true) :
    tagsWithin F ["->", "~"] = true := by
  induction F with
  | const b => simp [onlyIN] at h
  | var s => rfl
  | neg f ih => simpa [binStr] using ih (by simpa [onlyIN] using h)
  | bin op l r ihl ihr =>
    cases op <;> simp [onlyIN] at h <;>
      simp [binStr, ihl h.1, ihr h.2]

/-- The implies-false fragment has tags within the documented alphabet of
`to_implies_false`. -/
theorem tagsWithin_of_onlyIF (F : Formula) (h : onlyIF F = true) :
    tagsWithin F ["->", "F"] = true := by
  induction F with
  | const b => cases b <;> simp [onlyIF] at h <;> simp
  | var s => rfl
  | neg f ih => simp [onlyIF] at h
  | bin op l r ihl ihr =>
    cases op <;> simp [onlyIF] at h <;>
      simp [binStr, ihl h.1, ihr h.2]

/-- The output of `to_not_and_or` lies in the not-and-or fragment. -/
theorem onlyNAO_to_not_and_or (F : Formula) : onlyNAO (to_not_and_or F) = true := by
  induction F with
  | const b => cases b <;> rfl
  | var s => rfl
  | neg f ih => simpa [to_not_and_or, onlyNAO] using ih
  | bin op l r ihl ihr =>
    cases op <;> simp [to_not_and_or, onlyNAO, ihl, ihr]

/-- On the not-and-or fragment, `convert_or` produces the not-and fragment. -/
theorem onlyNA_convert_or (F : Formula) (h : onlyNAO F = true) :
    onlyNA (convert_or F) = true := by
  induction F with
  | const b => simp [onlyNAO] at h
  | var s => rfl
  | neg f ih => simpa [convert_or, onlyNA] using ih (by simpa [onlyNAO] using h)
  | bin op l r ihl ihr =>
    cases op <;> simp [onlyNAO] at h <;>
      simp [convert_or, onlyNA, ihl h.1, ihr h.2]

/-- The output of `to_not_and` lies in the not-and fragment. -/
theorem onlyNA_to_not_and (F : Formula) : onlyNA (to_not_and F) = true :=
  onlyNA_convert_or _ (onlyNAO_to_not_and_or F)

/-- On the not-and fragment, `convert_to_nand` produces the nand fragment. -/
theorem onlyNand_convert_to_nand (F : Formula) (h : onlyNA F = true) :
    onlyNand (convert_to_nand F) = true := by
  induction F with
  | const b => simp [onlyNA] at h
  | var s => rfl
  | neg f ih =>
    have := ih (by simpa [onlyNA] using h)
    simp [convert_to_nand, onlyNand, this]
  | bin op l r ihl ihr =>
    cases op <;> simp [onlyNA] at h <;>
      simp [convert_to_nand, onlyNand, ihl h.1, ihr h.2]

/-- The output of `to_nand` lies in the nand fragment. -/
theorem onlyNand_to_nand (F : Formula) : onlyNand (to_nand F) = true :=
  onlyNand_convert_to_nand _ (onlyNA_to_not_and F)

/-- On the not-and-or fragment, `convert_to_implies_not` produces the
implies-not fragment. -/
theorem onlyIN_convert_to_implies_not (F : Formula) (h : onlyNAO F = true) :
    onlyIN (convert_to_implies_not F) = true := by
  induction F with
  | const b => simp [onlyNAO] at h
  | var s => rfl
  | neg f ih =>
    simpa [convert_to_implies_not, onlyIN] using ih (by simpa [onlyNAO] using h)
  | bin op l r ihl ihr =>
    cases op <;> simp [onlyNAO] at h <;>
      simp [convert_to_implies_not, onlyIN, ihl h.1, ihr h.2]

/-- The output of `to_implies_not` lies in the implies-not fragment. -/
theorem onlyIN_to_implies_not (F : Formula) : onlyIN (to_implies_not F) = true := by
  rw [to_implies_not_eq]
  exact onlyIN_convert_to_implies_not _ (onlyNAO_to_not_and_or F)

/-- On the implies-not fragment, `convert_to_implies_false` produces the
implies-false fragment. -/
theorem onlyIF_convert_to_implies_false (F : Formula) (h : onlyIN F = true) :
    onlyIF (convert_to_implies_false F) = true := by
  induction F with
  | const b => simp [onlyIN] at h
  | var s => rfl
  | neg f ih =>
    have := ih (by simpa [onlyIN] using h)
    simp [convert_to_implies_false, onlyIF, this]
  | bin op l r ihl ihr =>
    cases op <;> simp [onlyIN] at h <;>
      simp [convert_to_implies_false, onlyIF, ihl h.1, ihr h.2]

/-- The output of `to_implies_false` lies in the implies-false fragment. -/
theorem onlyIF_to_implies_false (F : Formula) : onlyIF (to_implies_false F) = true := by
  rw [to_implies_false_eq]
  exact onlyIF_convert_to_implies_false _ (onlyIN_to_implies_not F)

/-- The not-and fragment sits inside the not-and-or fragment. -/
theorem onlyNAO_of_onlyNA (F : Formula) (h : onlyNA F = true) : onlyNAO F = true := by
  induction F with
  | const b => simp [onlyNA] at h
  | var s => rfl
  | neg f ih => simpa [onlyNAO] using ih (by simpa [onlyNA] using h)
  | bin op l r ihl ihr =>
    cases op <;> simp [onlyNA] at h <;>
      simp [onlyNAO, ihl h.1, ihr h.2]

/-- On its own output fragment, `to_not_and_or` is the structural identity. -/
theorem to_not_and_or_id (F : Formula) (h : onlyNAO F = true) : to_not_and_or F = F := by
  induction F with
  | const b => simp [onlyNAO] at h
  | var s => rfl
  | neg f ih => simp [to_not_and_or, ih (by simpa [onlyNAO] using h)]
  | bin op l r ihl ihr =>
    cases op <;> simp [onlyNAO] at h <;>
      simp [to_not_and_or, ihl h.1, ihr h.2]

/-- On the not-and fragment, `convert_or` is the structural identity. -/
theorem convert_or_id (F : Formula) (h : onlyNA F = true) : convert_or F = F := by
  induction F with
  | const b => simp [onlyNA] at h
  | var s => rfl
  | neg f ih => simp [convert_or, ih (by simpa [onlyNA] using h)]
  | bin op l r ihl ihr =>
    cases op <;> simp [onlyNA] at h <;>
      simp [convert_or, ihl h.1, ihr h.2]

/-- Number of negation nodes in a formula. -/
def notCount : Formula → Nat
  | .neg f => notCount f + 1
  | .bin _ l r => notCount l + notCount r
  | _ => 0

/-- Number of conjunction nodes in a formula. -/
def andCount : Formula → Nat
  | .neg f => andCount f
  | .bin .and l r => andCount l + andCount r + 1
  | .bin _ l r => andCount l + andCount r
  | _ => 0

/-- Number of nand nodes occurring in a formula tree (shared subtrees are
counted once per occurrence in the tree). -/
def countNand : Formula → Nat
  | .neg f => countNand f
  | .bin .nand l r => countNand l + countNand r + 1
  | .bin _ l r => countNand l + countNand r
  | _ => 0

/-- Instrumented copy of `convert_to_nand` that also counts how many times the
source applies the nand constructor: once per negation node and twice per
conjunction node, since the inner nand node of the conjunction case is built
once and used as both children of the outer one. -/
def convert_to_nand_cnt : Formula → Formula × Nat
  | .var s => (.var s, 0)
  | .neg f =>
    let p := convert_to_nand_cnt f
    (.bin .nand p.1 p.1, p.2 + 1)
  | .bin .and l r =>
    let pl := convert_to_nand_cnt l
    let pr := convert_to_nand_cnt r
    let nd := Formula.bin .nand pl.1 pr.1
    (.bin .nand nd nd, pl.2 + pr.2 + 2)
  | .bin op l r => (.bin op l r, 0)
  | .const b => (.const b, 0)

/-- The instrumented conversion computes the same formula as `convert_to_nand`. -/
theorem convert_to_nand_cnt_fst (F : Formula) :
    (convert_to_nand_cnt F).1 = convert_to_nand F := by
  induction F with
  | const b => rfl
  | var s => rfl
  | neg f ih => simp [convert_to_nand_cnt, convert_to_nand, ih]
  | bin op l r ihl ihr =>
    cases op <;> simp [convert_to_nand_cnt, convert_to_nand, ihl, ihr]

/-- On the not-and fragment, the number of nand constructor applications
performed by the conversion is the negation count plus twice the conjunction
count. -/
theorem convert_to_nand_cnt_snd (F : Formula) (h : onlyNA F = true) :
    (convert_to_nand_cnt F).2 = notCount F + 2 * andCount F := by
  induction F with
  | const b => simp [onlyNA] at h
  | var s => rfl
  | neg f ih =>
    have := ih (by simpa [onlyNA] using h)
    simp [convert_to_nand_cnt, notCount, andCount, this]
    omega
  | bin op l r ihl ihr =>
    cases op <;> simp [onlyNA] at h <;>
      simp [convert_to_nand_cnt, notCount, andCount, ihl h.1, ihr h.2] <;> omega

/-- Number of nodes of a formula tree. -/
def size : Formula → Nat
  | .const _ => 1
  | .var _ => 1
  | .neg f => size f + 1
  | .bin _ l r => size l + size r + 1

/-- Fuel-indexed version of `to_not_and_or`: each recursive call consumes one
unit of fuel and exhausted fuel reports failure, so producing a result is
exactly termination of the source recursion. -/
def to_not_and_or_fuel : Nat → Formula → Option Formula
  | 0, _ => none
  | _ + 1, .const true => some (.bin .or (.var "p") (.neg (.var "p")))
  | _ + 1, .const false => some (.bin .and (.var "p") (.neg (.var "p")))
  | _ + 1, .var s => some (.var s)
  | n + 1, .neg f => (to_not_and_or_fuel n f).map Formula.neg
  | n + 1, .bin op l r =>
    match to_not_and_or_fuel n l, to_not_and_or_fuel n r with
    | some left, some right =>
      some (match op with
        | .and => .bin .and left right
        | .or => .bin .or left right
        | .implies => .bin .or (.neg left) right
        | .xor => .bin .or (.bin .and left (.neg right)) (.bin .and (.neg left) right)
        | .iff => .bin .and (.bin .or (.neg left) right) (.bin .or left (.neg right))
        | .nand => .neg (.bin .and left right)
        | .nor => .neg (.bin .or left right))
    | _, _ => none

/-- Fuel-indexed version of `convert_or`. -/
def convert_or_fuel : Nat → Formula → Option Formula
  | 0, _ => none
  | _ + 1, .var s => some (.var s)
  | n + 1, .neg f => (convert_or_fuel n f).map Formula.neg
  | n + 1, .bin .and l r =>
    match convert_or_fuel n l, convert_or_fuel n r with
    | some left, some right => some (.bin .and left right)
    | _, _ => none
  | n + 1, .bin .or l r =>
    match convert_or_fuel n l, convert_or_fuel n r with
    | some left, some right =>
      some (.neg (.bin .and (.neg left) (.neg right)))
    | _, _ => none
  | _ + 1, .bin op l r => some (.bin op l r)
  | _ + 1, .const b => some (.const b)

/-- Fuel-indexed version of `convert_to_nand`. -/
def convert_to_nand_fuel : Nat → Formula → Option Formula
  | 0, _ => none
  | _ + 1, .var s => some (.var s)
  | n + 1, .neg f =>
    (convert_to_nand_fuel n f).map (fun inner => .bin .nand inner inner)
  | n + 1, .bin .and l r =>
    match convert_to_nand_fuel n l, convert_to_nand_fuel n r with
    | some left, some right =>
      some (.bin .nand (.bin .nand left right) (.bin .nand left right))
    | _, _ => none
  | _ + 1, .bin op l r => some (.bin op l r)
  | _ + 1, .const b => some (.const b)

/-- Fuel-indexed version of `convert_to_implies_not`. -/
def convert_to_implies_not_fuel : Nat → Formula → Option Formula
  | 0, _ => none
  | _ + 1, .var s => some (.var s)
  | n + 1, .neg f => (convert_to_implies_not_fuel n f).map Formula.neg
  | n + 1, .bin .and l r =>
    match convert_to_implies_not_fuel n l, convert_to_implies_not_fuel n r with
    | some left, some right =>
      some (.neg (.bin .implies left (.neg right)))
    | _, _ => none
  | n + 1, .bin .or l r =>
    match convert_to_implies_not_fuel n l, convert_to_implies_not_fuel n r with
    | some left, some right => some (.bin .implies (.neg left) right)
    | _, _ => none
  | _ + 1, .bin op l r => some (.bin op l r)
  | _ + 1, .const b => some (.const b)

/-- Fuel-indexed version of `convert_to_implies_false`. -/
def convert_to_implies_false_fuel : Nat → Formula → Option Formula
  | 0, _ => none
  | _ + 1, .var s => some (.var s)
  | n + 1, .neg f =>
    (convert_to_implies_false_fuel n f).map (fun inner => .bin .implies inner (.const false))
  | n + 1, .bin .implies l r =>
    match convert_to_implies_false_fuel n l, convert_to_implies_false_fuel n r with
    | some left, some right => some (.bin .implies left right)
    | _, _ => none
  | _ + 1, .bin op l r => some (.bin op l r)
  | _ + 1, .const b => some (.const b)

/-- Fuel-indexed version of `to_not_and`. -/
def to_not_and_fuel (n : Nat) (formula : Formula) : Option Formula :=
  (to_not_and_or_fuel n formula).bind (convert_or_fuel n)

/-- Fuel-indexed version of `to_nand`. -/
def to_nand_fuel (n : Nat) (formula : Formula) : Option Formula :=
  (to_not_and_fuel n formula).bind (convert_to_nand_fuel n)

/-- Fuel-indexed version of `to_implies_not`. -/
def to_implies_not_fuel (n : Nat) (formula : Formula) : Option Formula :=
  (to_not_and_or_fuel n formula).bind (fun f1 =>
    match f1 with
    | .const true => some (.bin .implies (.var "p") (.var "p"))
    | .const false => some (.neg (.bin .implies (.var "p") (.var "p")))
    | f1 => convert_to_implies_not_fuel n f1)

/-- Fuel-indexed version of `to_implies_false`. -/
def to_implies_false_fuel (n : Nat) (formula : Formula) : Option Formula :=
  (to_implies_not_fuel n formula).bind (fun f1 =>
    match f1 with
    | .const true => some (.bin .implies (.const false) (.const false))
    | f1 => convert_to_implies_false_fuel n f1)

/-- Fuel equal to the tree size suffices for `to_not_and_or`. -/
theorem to_not_and_or_fuel_eq (F : Formula) :
    ∀ n, size F ≤ n → to_not_and_or_fuel n F = some (to_not_and_or F) := by
  induction F with
  | const b =>
    intro n hn
    cases n with
    | zero => simp [size] at hn
    | succ m => cases b <;> rfl
  | var s =>
    intro n hn
    cases n with
    | zero => simp [size] at hn
    | succ m => rfl
  | neg f ih =>
    intro n hn
    cases n with
    | zero => simp [size] at hn
    | succ m =>
      have hf : size f ≤ m := by simp [size] at hn; omega
      simp [to_not_and_or_fuel, ih m hf, to_not_and_or]
  | bin op l r ihl ihr =>
    intro n hn
    cases n with
    | zero => simp [size] at hn
    | succ m =>
      have hl : size l ≤ m := by simp [size] at hn; omega
      have hr : size r ≤ m := by simp [size] at hn; omega
      cases op <;> simp [to_not_and_or_fuel, ihl m hl, ihr m hr, to_not_and_or]

/-- Fuel equal to the tree size suffices for `convert_or`. -/
theorem convert_or_fuel_eq (F : Formula) :
    ∀ n, size F ≤ n → convert_or_fuel n F = some (convert_or F) := by
  induction F with
  | const b =>
    intro n hn
    cases n with
    | zero => simp [size] at hn
    | succ m => rfl
  | var s =>
    intro n hn
    cases n with
    | zero => simp [size] at hn
    | succ m => rfl
  | neg f ih =>
    intro n hn
    cases n with
    | zero => simp [size] at hn
    | succ m =>
      have hf : size f ≤ m := by simp [size] at hn; omega
      simp [convert_or_fuel, ih m hf, convert_or]
  | bin op l r ihl ihr =>
    intro n hn
    cases n with
    | zero => simp [size] at hn
    | succ m =>
      have hl : size l ≤ m := by simp [size] at hn; omega
      have hr : size r ≤ m := by simp [size] at hn; omega
      cases op <;> simp [convert_or_fuel, ihl m hl, ihr m hr, convert_or]

/-- Fuel equal to the tree size suffices for `convert_to_nand`. -/
theorem convert_to_nand_fuel_eq (F : Formula) :
    ∀ n, size F ≤ n → convert_to_nand_fuel n F = some (convert_to_nand F) := by
  induction F with
  | const b =>
    intro n hn
    cases n with
    | zero => simp [size] at hn
    | succ m => rfl
  | var s =>
    intro n hn
    cases n with
    | zero => simp [size] at hn
    | succ m => rfl
  | neg f ih =>
    intro n hn
    cases n with
    | zero => simp [size] at hn
    | succ m =>
      have hf : size f ≤ m := by simp [size] at hn; omega
      simp [convert_to_nand_fuel, ih m hf, convert_to_nand]
  | bin op l r ihl ihr =>
    intro n hn
    cases n with
    | zero => simp [size] at hn
    | succ m =>
      have hl : size l ≤ m := by simp [size] at hn; omega
      have hr : size r ≤ m := by simp [size] at hn; omega
      cases op <;> simp [convert_to_nand_fuel, ihl m hl, ihr m hr, convert_to_nand]

/-- Fuel equal to the tree size suffices for `convert_to_implies_not`. -/
theorem convert_to_implies_not_fuel_eq (F : Formula) :
    ∀ n, size F ≤ n →
      convert_to_implies_not_fuel n F = some (convert_to_implies_not F) := by
  induction F with
  | const b =>
    intro n hn
    cases n with
    | zero => simp [size] at hn
    | succ m => rfl
  | var s =>
    intro n hn
    cases n with
    | zero => simp [size] at hn
    | succ m => rfl
  | neg f ih =>
    intro n hn
    cases n with
    | zero => simp [size] at hn
    | succ m =>
      have hf : size f ≤ m := by simp [size] at hn; omega
      simp [convert_to_implies_not_fuel, ih m hf, convert_to_implies_not]
  | bin op l r ihl ihr =>
    intro n hn
    cases n with
    | zero => simp [size] at hn
    | succ m =>
      have hl : size l ≤ m := by simp [size] at hn; omega
      have hr : size r ≤ m := by simp [size] at hn; omega
      cases op <;>
        simp [convert_to_implies_not_fuel, ihl m hl, ihr m hr, convert_to_implies_not]

/-- Fuel equal to the tree size suffices for `convert_to_implies_false`. -/
theorem convert_to_implies_false_fuel_eq (F : Formula) :
    ∀ n, size F ≤ n →
      convert_to_implies_false_fuel n F = some (convert_to_implies_false F) := by
  induction F with
  | const b =>
    intro n hn
    cases n with
    | zero => simp [size] at hn
    | succ m => rfl
  | var s =>
    intro n hn
    cases n with
    | zero => simp [size] at hn
    | succ m => rfl
  | neg f ih =>
    intro n hn
    cases n with
    | zero => simp [size] at hn
    | succ m =>
      have hf : size f ≤ m := by simp [size] at hn; omega
      simp [convert_to_implies_false_fuel, ih m hf, convert_to_implies_false]
  | bin op l r ihl ihr =>
    intro n hn
    cases n with
    | zero => simp [size] at hn
    | succ m =>
      have hl : size l ≤ m := by simp [size] at hn; omega
      have hr : size r ≤ m := by simp [size] at hn; omega
      cases op <;>
        simp [convert_to_implies_false_fuel, ihl m hl, ihr m hr, convert_to_implies_false]

/-- Sufficient fuel makes the fueled `to_not_and` succeed with the value of the
total one. -/
theorem to_not_and_fuel_eq (F : Formula) (n : Nat) (h1 : size F ≤ n)
    (h2 : size (to_not_and_or F) ≤ n) :
    to_not_and_fuel n F = some (to_not_and F) := by
  rw [to_not_and_fuel, to_not_and_or_fuel_eq F n h1]
  simpa [to_not_and] using convert_or_fuel_eq (to_not_and_or F) n h2

/-- Sufficient fuel makes the fueled `to_nand` succeed with the value of the
total one. -/
theorem to_nand_fuel_eq (F : Formula) (n : Nat) (h1 : size F ≤ n)
    (h2 : size (to_not_and_or F) ≤ n) (h3 : size (to_not_and F) ≤ n) :
    to_nand_fuel n F = some (to_nand F) := by
  rw [to_nand_fuel, to_not_and_fuel_eq F n h1 h2]
  simpa [to_nand] using convert_to_nand_fuel_eq (to_not_and F) n h3

/-- Sufficient fuel makes the fueled `to_implies_not` succeed with the value of
the total one. -/
theorem to_implies_not_fuel_eq (F : Formula) (n : Nat) (h1 : size F ≤ n)
    (h2 : size (to_not_and_or F) ≤ n) :
    to_implies_not_fuel n F = some (to_implies_not F) := by
  have hconv := convert_to_implies_not_fuel_eq (to_not_and_or F) n h2
  have hne := to_not_and_or_not_const F
  rw [to_implies_not_fuel, to_not_and_or_fuel_eq F n h1, to_implies_not_eq]
  cases hF : to_not_and_or F with
  | const b => rw [hF] at hne; simp [isConstRoot] at hne
  | var s => rw [hF] at hconv; simpa using hconv
  | neg f => rw [hF] at hconv; simpa using hconv
  | bin op l r => rw [hF] at hconv; simpa using hconv

/-- Sufficient fuel makes the fueled `to_implies_false` succeed with the value
of the total one. -/
theorem to_implies_false_fuel_eq (F : Formula) (n : Nat) (h1 : size F ≤ n)
    (h2 : size (to_not_and_or F) ≤ n) (h3 : size (to_implies_not F) ≤ n) :
    to_implies_false_fuel n F = some (to_implies_false F) := by
  have hconv := convert_to_implies_false_fuel_eq (to_implies_not F) n h3
  have hne := to_implies_not_not_const F
  rw [to_implies_false_fuel, to_implies_not_fuel_eq F n h1 h2, to_implies_false_eq]
  cases hF : to_implies_not F with
  | const b => rw [hF] at hne; simp [isConstRoot] at hne
  | var s => rw [hF] at hconv; simpa using hconv
  | neg f => rw [hF] at hconv; simpa using hconv
  | bin op l r => rw [hF] at hconv; simpa using hconv

/-- C1: every one of the five transforms preserves the truth table of its input
under every assignment of truth values, and the value of a transformed formula
depends only on the values of the input formula's own variables, so for inputs
containing constants it is the same whichever truth value the idiom variable p
is bound to. -/
theorem C1_equivalence_preservation (F : Formula) (v v' : String → Bool)
    (h : ∀ x ∈ vars F, v x = v' x) :
    (eval v (to_not_and_or F) = eval v F ∧
      eval v (to_not_and F) = eval v F ∧
      eval v (to_nand F) = eval v F ∧
      eval v (to_implies_not F) = eval v F ∧
      eval v (to_implies_false F) = eval v F) ∧
    (eval v (to_not_and_or F) = eval v' (to_not_and_or F) ∧
      eval v (to_not_and F) = eval v' (to_not_and F) ∧
      eval v (to_nand F) = eval v' (to_nand F) ∧
      eval v (to_implies_not F) = eval v' (to_implies_not F) ∧
      eval v (to_implies_false F) = eval v' (to_implies_false F)) := by
  have hFv := eval_congr_vars F v v' h
  refine ⟨⟨eval_to_not_and_or v F, eval_to_not_and v F, eval_to_nand v F,
    eval_to_implies_not v F, eval_to_implies_false v F⟩, ?_, ?_, ?_, ?_, ?_⟩
  · rw [eval_to_not_and_or, eval_to_not_and_or, hFv]
  · rw [eval_to_not_and, eval_to_not_and, hFv]
  · rw [eval_to_nand, eval_to_nand, hFv]
  · rw [eval_to_implies_not, eval_to_implies_not, hFv]
  · rw [eval_to_implies_false, eval_to_implies_false, hFv]

/-- Witness for C1 at the constant true formula, under the two assignments that
bind every variable (in particular the idiom variable p) to true and to false
respectively. -/
theorem C1_equivalence_preservation_witness :
    (∀ x ∈ vars (Formula.const true),
      (fun _ : String => true) x = (fun _ : String => false) x) ∧
    ((eval (fun _ => true) (to_not_and_or (Formula.const true)) =
        eval (fun _ => true) (Formula.const true) ∧
      eval (fun _ => true) (to_not_and (Formula.const true)) =
        eval (fun _ => true) (Formula.const true) ∧
      eval (fun _ => true) (to_nand (Formula.const true)) =
        eval (fun _ => true) (Formula.const true) ∧
      eval (fun _ => true) (to_implies_not (Formula.const true)) =
        eval (fun _ => true) (Formula.const true) ∧
      eval (fun _ => true) (to_implies_false (Formula.const true)) =
        eval (fun _ => true) (Formula.const true)) ∧
    (eval (fun _ => true) (to_not_and_or (Formula.const true)) =
        eval (fun _ => false) (to_not_and_or (Formula.const true)) ∧
      eval (fun _ => true) (to_not_and (Formula.const true)) =
        eval (fun _ => false) (to_not_and (Formula.const true)) ∧
      eval (fun _ => true) (to_nand (Formula.const true)) =
        eval (fun _ => false) (to_nand (Formula.const true)) ∧
      eval (fun _ => true) (to_implies_not (Formula.const true)) =
        eval (fun _ => false) (to_implies_not (Formula.const true)) ∧
      eval (fun _ => true) (to_implies_false (Formula.const true)) =
        eval (fun _ => false) (to_implies_false (Formula.const true)))) :=
  ⟨by simp [vars],
   C1_equivalence_preservation (Formula.const true) (fun _ => true) (fun _ => false)
     (by simp [vars])⟩

/-- C2: the operator and constant tags of each transform's output lie within
that transform's documented target alphabet, for every input formula. -/
theorem C2_alphabet_containment (F : Formula) :
    tagsWithin (to_not_and_or F) ["~", "&", "|"] = true ∧
    tagsWithin (to_not_and F) ["~", "&"] = true ∧
    tagsWithin (to_nand F) ["-&"] = true ∧
    tagsWithin (to_implies_not F) ["->", "~"] = true ∧
    tagsWithin (to_implies_false F) ["->", "F"] = true :=
  ⟨tagsWithin_of_onlyNAO _ (onlyNAO_to_not_and_or F),
   tagsWithin_of_onlyNA _ (onlyNA_to_not_and F),
   tagsWithin_of_onlyNand _ (onlyNand_to_nand F),
   tagsWithin_of_onlyIN _ (onlyIN_to_implies_not F),
   tagsWithin_of_onlyIF _ (onlyIF_to_implies_false F)⟩

/-- C3 counterexample: on the constant true input, `to_implies_not` returns the
implication from the negated idiom variable to itself, because the first stage
returns the disjunction idiom rather than a bare constant and the bare-constant
special case does not fire; the output is therefore not the claimed implication
from the idiom variable to itself. -/
theorem C3_counterexample :
    to_implies_not (.const true) =
      .bin .implies (.neg (.var "p")) (.neg (.var "p")) ∧
    to_implies_not (.const true) ≠ .bin .implies (.var "p") (.var "p") :=
  ⟨rfl, by decide⟩

/-- C3 amended: on the constant true input, `to_not_and_or` returns exactly the
disjunction of the idiom variable with its negation, and `to_implies_not`
returns exactly the implication from the negated idiom variable to itself. -/
theorem C3_constant_true_outputs :
    to_not_and_or (.const true) = .bin .or (.var "p") (.neg (.var "p")) ∧
    to_implies_not (.const true) =
      .bin .implies (.neg (.var "p")) (.neg (.var "p")) :=
  ⟨rfl, rfl⟩

/-- C4: composing the documented pipeline order reproduces the direct call of
`to_nand`, structurally and hence with the same truth table. -/
theorem C4_chaining (F : Formula) :
    to_nand (to_not_and (to_not_and_or F)) = to_nand F ∧
    ∀ v : String → Bool,
      eval v (to_nand (to_not_and (to_not_and_or F))) = eval v (to_nand F) := by
  have h1 : to_not_and_or (to_not_and_or F) = to_not_and_or F :=
    to_not_and_or_id _ (onlyNAO_to_not_and_or F)
  have h2 : to_not_and (to_not_and_or F) = to_not_and F := by
    rw [to_not_and, h1, to_not_and]
  have hX : onlyNA (to_not_and F) = true := onlyNA_to_not_and F
  have h3 : to_not_and (to_not_and F) = to_not_and F := by
    rw [to_not_and, to_not_and_or_id _ (onlyNAO_of_onlyNA _ hX), convert_or_id _ hX]
  have heq : to_nand (to_not_and (to_not_and_or F)) = to_nand F := by
    rw [h2, to_nand, h3, to_nand]
  exact ⟨heq, fun v => by rw [heq]⟩

/-- C5: the first stage rewrites every implication node to the disjunction of
the negated reduced left child with the reduced right child; in particular the
implication between two variables becomes the disjunction of the negated first
variable with the second. -/
theorem C5_implies_rewrite (a b : Formula) :
    to_not_and_or (.bin .implies a b) =
      .bin .or (.neg (to_not_and_or a)) (to_not_and_or b) ∧
    to_not_and_or (.bin .implies (.var "p") (.var "q")) =
      .bin .or (.neg (.var "p")) (.var "q") :=
  ⟨rfl, rfl⟩

/-- C6 counterexample: on the negation of a variable, the nand conversion stage
emits a single nand node, not two, so the nand count of the output is not twice
the operator count of the input. -/
theorem C6_counterexample :
    countNand (convert_to_nand (.neg (.var "q"))) = 1 ∧
    notCount (Formula.neg (.var "q")) + andCount (Formula.neg (.var "q")) = 1 ∧
    countNand (convert_to_nand (.neg (.var "q"))) ≠
      2 * (notCount (Formula.neg (.var "q")) + andCount (Formula.neg (.var "q"))) :=
  ⟨rfl, rfl, by decide⟩

/-- C6 amended: on input over only variables, negation and conjunction, the
nand conversion stage applies the nand constructor exactly once per negation
node and exactly twice per conjunction node (the inner nand of the conjunction
case is constructed once and used as both children), so the number of nand
constructor applications performed equals the negation count plus twice the
conjunction count; the instrumented conversion that counts these applications
computes the same output formula as the plain one. -/
theorem C6_nand_count (G : Formula) (h : onlyNA G = true) :
    (convert_to_nand_cnt G).1 = convert_to_nand G ∧
    (convert_to_nand_cnt G).2 = notCount G + 2 * andCount G :=
  ⟨convert_to_nand_cnt_fst G, convert_to_nand_cnt_snd G h⟩

/-- Witness for C6 at the conjunction of a negated variable with a variable:
three nand constructor applications for one negation and one conjunction. -/
theorem C6_nand_count_witness :
    onlyNA (Formula.bin .and (.neg (.var "q")) (.var "r")) = true ∧
    ((convert_to_nand_cnt (Formula.bin .and (.neg (.var "q")) (.var "r"))).1 =
        convert_to_nand (Formula.bin .and (.neg (.var "q")) (.var "r")) ∧
      (convert_to_nand_cnt (Formula.bin .and (.neg (.var "q")) (.var "r"))).2 =
        notCount (Formula.bin .and (.neg (.var "q")) (.var "r")) +
          2 * andCount (Formula.bin .and (.neg (.var "q")) (.var "r"))) :=
  ⟨by decide, C6_nand_count _ (by decide)⟩

/-- C7: each of the five operations is total: with fuel bounded by the sizes of
the trees the pipeline passes through, the fuel-indexed versions of the five
recursions all succeed and return the complete reduced formula, with no error
path. -/
theorem C7_totality (F : Formula) :
    ∃ n, to_not_and_or_fuel n F = some (to_not_and_or F) ∧
      to_not_and_fuel n F = some (to_not_and F) ∧
      to_nand_fuel n F = some (to_nand F) ∧
      to_implies_not_fuel n F = some (to_implies_not F) ∧
      to_implies_false_fuel n F = some (to_implies_false F) := by
  refine ⟨size F + size (to_not_and_or F) + size (to_not_and F) +
      size (to_implies_not F), ?_, ?_, ?_, ?_, ?_⟩
  · exact to_not_and_or_fuel_eq F _ (by omega)
  · exact to_not_and_fuel_eq F _ (by omega) (by omega)
  · exact to_nand_fuel_eq F _ (by omega) (by omega) (by omega)
  · exact to_implies_not_fuel_eq F _ (by omega) (by omega)
  · exact to_implies_false_fuel_eq F _ (by omega) (by omega) (by omega)

/-- C8: the output of `to_not_and_or` never has a constant at its root, so the
bare-constant special-case branches of `to_implies_not` and `to_implies_false`
are unreachable: both functions always reduce to their recursive conversion
applied to the upstream output. -/
theorem C8_constant_special_cases_unreachable :
    (∀ F : Formula, isConstRoot (to_not_and_or F) = false) ∧
    (∀ F : Formula, to_implies_not F = convert_to_implies_not (to_not_and_or F)) ∧
    (∀ F : Formula, to_implies_false F = convert_to_implies_false (to_implies_not F)) :=
  ⟨to_not_and_or_not_const, to_implies_not_eq, to_implies_false_eq⟩

/-- C9: on a formula already over only variables, negation, conjunction and
disjunction, `to_not_and_or` is the structural identity; hence it is
structurally idempotent on every input. -/
theorem C9_idempotence (F G : Formula) (h : onlyNAO G = true) :
    to_not_and_or G = G ∧
    to_not_and_or (to_not_and_or F) = to_not_and_or F :=
  ⟨to_not_and_or_id G h, to_not_and_or_id _ (onlyNAO_to_not_and_or F)⟩

/-- Witness for C9 at a conjunction already in the target fragment and at an
implication that the first pass rewrites. -/
theorem C9_idempotence_witness :
    onlyNAO (Formula.bin .and (.var "q") (.neg (.var "r"))) = true ∧
    (to_not_and_or (Formula.bin .and (.var "q") (.neg (.var "r"))) =
        Formula.bin .and (.var "q") (.neg (.var "r")) ∧
      to_not_and_or (to_not_and_or (Formula.bin .implies (.var "q") (.var "r"))) =
        to_not_and_or (Formula.bin .implies (.var "q") (.var "r"))) :=
  ⟨by decide,
   C9_idempotence (Formula.bin .implies (.var "q") (.var "r"))
     (Formula.bin .and (.var "q") (.neg (.var "r"))) (by decide)⟩

/-- C10: each downstream operation accepts any formula over the full alphabet,
because it internally applies its upstream reductions first; truth-table
preservation and target-alphabet containment hold for every input with no
restricted-alphabet precondition. -/
theorem C10_downstream_total_alphabet (F : Formula) (v : String → Bool) :
    (eval v (to_not_and F) = eval v F ∧
      tagsWithin (to_not_and F) ["~", "&"] = true) ∧
    (eval v (to_nand F) = eval v F ∧
      tagsWithin (to_nand F) ["-&"] = true) ∧
    (eval v (to_implies_not F) = eval v F ∧
      tagsWithin (to_implies_not F) ["->", "~"] = true) ∧
    (eval v (to_implies_false F) = eval v F ∧
      tagsWithin (to_implies_false F) ["->", "F"] = true) :=
  ⟨⟨eval_to_not_and v F, tagsWithin_of_onlyNA _ (onlyNA_to_not_and F)⟩,
   ⟨eval_to_nand v F, tagsWithin_of_onlyNand _ (onlyNand_to_nand F)⟩,
   ⟨eval_to_implies_not v F, tagsWithin_of_onlyIN _ (onlyIN_to_implies_not F)⟩,
   ⟨eval_to_implies_false v F, tagsWithin_of_onlyIF _ (onlyIF_to_implies_false F)⟩⟩

end Operators
